import Mathlib

/-!
Verification development for the notation / FEN-validation / material-evaluation core
of the bookgen chess-variant engine (source: src/src/apiutil.h).

Shallow embedding conventions:
* C++ `std::string` values become `List Char`; the C locale functions become ASCII
  predicates below.
* The `fen` namespace of apiutil.h is translated function by function
  (`get_fen_parts`, `fill_char_board`, `check_*`, `validate_fen`); early `return NOK`
  loops become structural recursion or `List.all`/`List.any`.
* Data that validate_fen consumes from the Variant descriptor (variant.h, which is not
  part of the repository sources given) is modelled from the spec as the `Variant`
  structure; everything else is translated from apiutil.h itself.
* `std::getline`-based splitting keeps getline's semantics: a trailing delimiter does
  not produce a final empty part.
-/

set_option maxHeartbeats 1000000
set_option maxRecDepth 8000

namespace Bookgen

/-! ## ASCII character helpers (`<cctype>` as used by apiutil.h) -/

def isdigit (c : Char) : Bool := decide (48 ≤ c.toNat ∧ c.toNat ≤ 57)

def isupper (c : Char) : Bool := decide (65 ≤ c.toNat ∧ c.toNat ≤ 90)

def islower (c : Char) : Bool := decide (97 ≤ c.toNat ∧ c.toNat ≤ 122)

def isalpha (c : Char) : Bool := isupper c || islower c

def toupper (c : Char) : Char := if islower c then Char.ofNat (c.toNat - 32) else c

def tolower (c : Char) : Char := if isupper c then Char.ofNat (c.toNat + 32) else c

/-- Value of a digit character, as computed by `c - '0'` in the source. -/
def digitVal (c : Char) : Nat := c.toNat - 48

/-! ## Colors and per-color pairs (std::array<T, 2> indexed by WHITE/BLACK) -/

inductive Color : Type where
  | WHITE : Color
  | BLACK : Color
deriving DecidableEq

structure ColorPair (α : Type) where
  white : α
  black : α
deriving DecidableEq

def ColorPair.get {α : Type} (p : ColorPair α) : Color → α
  | Color.WHITE => p.white
  | Color.BLACK => p.black

def ColorPair.set {α : Type} (p : ColorPair α) : Color → α → ColorPair α
  | Color.WHITE, a => { p with white := a }
  | Color.BLACK, a => { p with black := a }

/-! ## Result enumerations of the fen namespace -/

inductive FenValidation : Type where
  | FEN_MISSING_SPACE_DELIM
  | FEN_INVALID_NB_PARTS
  | FEN_INVALID_CHAR
  | FEN_TOUCHING_KINGS
  | FEN_INVALID_BOARD_GEOMETRY
  | FEN_INVALID_POCKET_INFO
  | FEN_INVALID_SIDE_TO_MOVE
  | FEN_INVALID_CASTLING_INFO
  | FEN_INVALID_EN_PASSANT_SQ
  | FEN_INVALID_NUMBER_OF_KINGS
  | FEN_INVALID_HALF_MOVE_COUNTER
  | FEN_INVALID_MOVE_COUNTER
  | FEN_EMPTY
  | FEN_OK
deriving DecidableEq

inductive Validation : Type where
  | NOK
  | OK
deriving DecidableEq

export FenValidation (FEN_MISSING_SPACE_DELIM FEN_INVALID_NB_PARTS FEN_INVALID_CHAR
  FEN_TOUCHING_KINGS FEN_INVALID_BOARD_GEOMETRY FEN_INVALID_POCKET_INFO
  FEN_INVALID_SIDE_TO_MOVE FEN_INVALID_CASTLING_INFO FEN_INVALID_EN_PASSANT_SQ
  FEN_INVALID_NUMBER_OF_KINGS FEN_INVALID_HALF_MOVE_COUNTER FEN_INVALID_MOVE_COUNTER
  FEN_EMPTY FEN_OK)

export Validation (NOK OK)

/-! ## CharSquare and CharBoard (apiutil.h lines 345-430) -/

structure CharSquare where
  rowIdx : Int
  fileIdx : Int
deriving DecidableEq

/-- `pow(s1.rowIdx - s2.rowIdx, 2) + pow(s1.fileIdx - s2.fileIdx, 2)`: the doubles
returned by `pow` are exact for these small integer arguments, so the value is the
integer squared Euclidean distance. -/
def non_root_euclidian_distance (s1 s2 : CharSquare) : Int :=
  (s1.rowIdx - s2.rowIdx) ^ 2 + (s1.fileIdx - s2.fileIdx) ^ 2

/-- Row-major character grid; `board` has length `nbRanks * nbFiles`, filled with ' '. -/
structure CharBoard where
  nbRanks : Nat
  nbFiles : Nat
  board : List Char
deriving DecidableEq

def CharBoard.init (nbRanks nbFiles : Nat) : CharBoard :=
  ⟨nbRanks, nbFiles, List.replicate (nbRanks * nbFiles) ' '⟩

def CharBoard.set_piece (b : CharBoard) (rankIdx fileIdx : Nat) (c : Char) : CharBoard :=
  { b with board := b.board.set (rankIdx * b.nbFiles + fileIdx) c }

def CharBoard.get_piece_nat (b : CharBoard) (rowIdx fileIdx : Nat) : Char :=
  b.board.getD (rowIdx * b.nbFiles + fileIdx) ' '

/-- `get_piece` with the int indices used by the castling checks; out-of-range squares
(for example the `(-1,-1)` produced for an absent piece) read the blank character. -/
def CharBoard.get_piece (b : CharBoard) (rowIdx fileIdx : Int) : Char :=
  if 0 ≤ rowIdx ∧ 0 ≤ fileIdx then b.get_piece_nat rowIdx.toNat fileIdx.toNat else ' '

def CharBoard.get_piece_at (b : CharBoard) (s : CharSquare) : Char :=
  b.get_piece s.rowIdx s.fileIdx

/-- First square holding `piece` in row-major scan order, `(-1,-1)` if absent. -/
def CharBoard.get_square_for_piece (b : CharBoard) (piece : Char) : CharSquare :=
  match (List.range b.nbRanks).findSome? (fun r =>
      ((List.range b.nbFiles).find? (fun c => b.get_piece_nat r c = piece)).map
        (fun c => CharSquare.mk (Int.ofNat r) (Int.ofNat c))) with
  | some s => s
  | none => ⟨-1, -1⟩

/-- All squares holding `piece`, in row-major scan order. -/
def CharBoard.get_squares_for_piece (b : CharBoard) (piece : Char) : List CharSquare :=
  (List.range b.nbRanks).flatMap (fun r =>
    ((List.range b.nbFiles).filter (fun c => b.get_piece_nat r c = piece)).map
      (fun c => CharSquare.mk (Int.ofNat r) (Int.ofNat c)))

def CharBoard.is_piece_on_rank (b : CharBoard) (piece : Char) (rowIdx : Int) : Bool :=
  (List.range b.nbFiles).any (fun f => b.get_piece rowIdx (Int.ofNat f) = piece)

/-! ## Variant descriptor -/

/-- Modelled from the spec: the VariantDescriptor rule data (variant.h is not among the
given sources). Only the fields the validator core consumes are modelled: the
piece-letter table searched character-wise (`pieceToChar`), the white king glyph
(`pieceToChar[KING]`, written `kingChar`), the 0-based board extents, the canonical
start FEN, and the boolean rule flags it reads: piece drops, castling, chess960,
double-step pawn moves, whether KING and PAWN are declared piece types
(`pieceTypes.find(KING/PAWN) != end()`), and whether the extinction piece-type set is
empty (`extinctionPieceTypes.size() == 0`). -/
structure Variant where
  pieceToChar : List Char
  kingChar : Char
  maxRank : Nat
  maxFile : Nat
  startFen : List Char
  pieceDrops : Bool
  castling : Bool
  chess960 : Bool
  doubleStep : Bool
  hasKing : Bool
  hasPawn : Bool
  extinctionEmpty : Bool
deriving DecidableEq

/-- The standard-chess variant instance, as configured by the engine defaults. -/
def stdChess : Variant where
  pieceToChar := [('P'), 'N', 'B', 'R', 'Q', 'K', 'p', 'n', 'b', 'r', 'q', 'k']
  kingChar := 'K'
  maxRank := 7
  maxFile := 7
  startFen := ("rnbqkbnr/pppppppp/8/8/8/8/PPPPPPPP/RNBQKBNR w KQkq - 0 1").toList
  pieceDrops := false
  castling := true
  chess960 := false
  doubleStep := true
  hasKing := true
  hasPawn := true
  extinctionEmpty := true

def validSpecialCharacters : List Char := [('/'), '+', '~', '[', ']', '-']

/-! ## get_fen_parts (apiutil.h lines 442-449) -/

def split_on_char (d : Char) : List Char → List (List Char)
  | [] => [[]]
  | c :: cs =>
    let r := split_on_char d cs
    if c = d then [] :: r
    else (c :: r.headD []) :: r.tail

/-- `std::getline` splitting: an empty input yields no parts, and a trailing delimiter
does not produce a final empty part (getline fails at end of stream). -/
def get_fen_parts (fullFen : List Char) (delim : Char) : List (List Char) :=
  if fullFen = [] then []
  else
    let parts := split_on_char delim fullFen
    if fullFen.getLast? = some delim then parts.dropLast else parts

/-! ## Field checks of the fen namespace -/

def check_for_valid_characters (firstFenPart : List Char) (v : Variant) : Validation :=
  if firstFenPart.all
      (fun c => isdigit c || v.pieceToChar.contains c || validSpecialCharacters.contains c)
  then OK else NOK

/-- Loop body of `fill_char_board` (apiutil.h lines 456-485); `none` is the early
`return NOK`, `some (board, rankIdx)` carries the state reaching the rank-count check. -/
def fill_loop (v : Variant) : CharBoard → Nat → Nat → Char → List Char →
    Option (CharBoard × Nat)
  | b, rankIdx, _, _, [] => some (b, rankIdx)
  | b, rankIdx, fileIdx, prevChar, c :: cs =>
    if c = ' ' ∨ c = '[' then some (b, rankIdx)
    else if isdigit c then
      fill_loop v b rankIdx
        (fileIdx + digitVal c + (if isdigit prevChar then 9 * digitVal prevChar else 0)) c cs
    else if c = '/' then
      if fileIdx ≠ b.nbFiles then none
      else if rankIdx + 1 = b.nbRanks then some (b, rankIdx + 1)
      else fill_loop v b (rankIdx + 1) 0 c cs
    else if validSpecialCharacters.contains c then fill_loop v b rankIdx fileIdx c cs
    else
      if fileIdx = b.nbFiles then none
      else fill_loop v (b.set_piece (v.maxRank - rankIdx) fileIdx c) rankIdx (fileIdx + 1) c cs

def fill_char_board (b : CharBoard) (fenBoard : List Char) (v : Variant) :
    Validation × CharBoard :=
  match fill_loop v b 0 0 '?' fenBoard with
  | none => (NOK, b)
  | some (b2, rankIdx) =>
    if v.pieceDrops then
      if rankIdx + 1 ≠ b2.nbRanks ∧ rankIdx ≠ b2.nbRanks then (NOK, b2) else (OK, b2)
    else
      if rankIdx + 1 ≠ b2.nbRanks then (NOK, b2) else (OK, b2)

def fill_castling_loop : List Char → ColorPair (List Char) →
    Validation × ColorPair (List Char)
  | [], info => (OK, info)
  | c :: cs, info =>
    if c = '-' then fill_castling_loop cs info
    else if ¬ isalpha c then (NOK, info)
    else if isupper c then
      fill_castling_loop cs (info.set Color.WHITE (info.white ++ [tolower c]))
    else fill_castling_loop cs (info.set Color.BLACK (info.black ++ [c]))

def fill_castling_info_splitted (castlingInfo : List Char) :
    Validation × ColorPair (List Char) :=
  fill_castling_loop castlingInfo ⟨[], []⟩

def king_glyph (v : Variant) : Color → Char
  | Color.WHITE => toupper v.kingChar
  | Color.BLACK => tolower v.kingChar

/-- `'R'` / `'r'` — the source deliberately hardcodes the rook letter. -/
def rook_char : Color → Char
  | Color.WHITE => 'R'
  | Color.BLACK => 'r'

def check_960_color (info : ColorPair (List Char)) (board : CharBoard)
    (kingPositionsStart : ColorPair CharSquare) (c : Color) : Validation :=
  if info.get c = [] then OK
  else
    let rank := (kingPositionsStart.get c).rowIdx
    if ¬ board.is_piece_on_rank (if c = Color.BLACK then 'k' else 'K') rank then NOK
    else if ¬ board.is_piece_on_rank (rook_char c) rank then NOK
    else OK

def check_960_castling (info : ColorPair (List Char)) (board : CharBoard)
    (kingPositionsStart : ColorPair CharSquare) : Validation :=
  if check_960_color info board kingPositionsStart Color.WHITE = NOK then NOK
  else check_960_color info board kingPositionsStart Color.BLACK

def check_touching_kings (kingPositions : ColorPair CharSquare) : Validation :=
  if non_root_euclidian_distance kingPositions.white kingPositions.black ≤ 2 then NOK
  else OK

/-- Per-color body of `check_standard_castling`: inner loop order is KING_SIDE
(`'k'`, rook start index 1) then QUEEN_SIDE (`'q'`, rook start index 0). -/
def check_standard_color (info : ColorPair (List Char)) (board : CharBoard)
    (kingPositions kingPositionsStart : ColorPair CharSquare)
    (rookPositionsStart : ColorPair (List CharSquare)) (c : Color) : Validation :=
  if info.get c = [] then OK
  else if kingPositions.get c ≠ kingPositionsStart.get c then NOK
  else if 'k' ∈ info.get c ∧
      board.get_piece_at ((rookPositionsStart.get c).getD 1 ⟨-1, -1⟩) ≠ rook_char c then NOK
  else if 'q' ∈ info.get c ∧
      board.get_piece_at ((rookPositionsStart.get c).getD 0 ⟨-1, -1⟩) ≠ rook_char c then NOK
  else OK

def check_standard_castling (info : ColorPair (List Char)) (board : CharBoard)
    (kingPositions kingPositionsStart : ColorPair CharSquare)
    (rookPositionsStart : ColorPair (List CharSquare)) : Validation :=
  if check_standard_color info board kingPositions kingPositionsStart rookPositionsStart
      Color.WHITE = NOK then NOK
  else check_standard_color info board kingPositions kingPositionsStart rookPositionsStart
      Color.BLACK

/-- Reverse scan of `check_pocket_info`; `stopChar` is `'/'` or `'['`. -/
def pocket_scan (v : Variant) (stopChar : Char) : List Char → ColorPair (List Char) →
    Validation × ColorPair (List Char)
  | [], pockets => (NOK, pockets)
  | c :: cs, pockets =>
    if c = stopChar then (OK, pockets)
    else if c = '-' then pocket_scan v stopChar cs pockets
    else if ¬ v.pieceToChar.contains c then (NOK, pockets)
    else if isupper c then
      pocket_scan v stopChar cs (pockets.set Color.WHITE (pockets.white ++ [tolower c]))
    else pocket_scan v stopChar cs (pockets.set Color.BLACK (pockets.black ++ [c]))

def check_pocket_info (fenBoard : List Char) (nbRanks : Nat) (v : Variant) :
    Validation × ColorPair (List Char) :=
  if fenBoard.count '/' = nbRanks then pocket_scan v '/' fenBoard.reverse ⟨[], []⟩
  else if fenBoard.getLast?.getD '\x00' ≠ ']' then (NOK, ⟨[], []⟩)
  else pocket_scan v '[' (fenBoard.reverse.drop 1) ⟨[], []⟩

def check_number_of_kings (fenBoard : List Char) (v : Variant) : Validation :=
  if fenBoard.count (toupper v.kingChar) = 1 ∧ fenBoard.count (tolower v.kingChar) = 1
  then OK else NOK

/-- apiutil.h lines 671-689; `enPassantInfo[0]` on an empty string reads the
terminating null character, which the embedding writes `'\x00'`. -/
def check_en_passant_square (enPassantInfo : List Char) : Validation :=
  if enPassantInfo.headD '\x00' ≠ '-' then
    if enPassantInfo.length ≠ 2 then NOK
    else if isdigit (enPassantInfo.headD '\x00') then NOK
    else if ¬ isdigit (enPassantInfo.getD 1 '\x00') then NOK
    else OK
  else OK

def no_king_piece_in_pockets (pockets : ColorPair (List Char)) : Bool :=
  ¬ ('k' ∈ pockets.white) ∧ ¬ ('k' ∈ pockets.black)

def check_digit_field (field : List Char) : Validation :=
  if field = ['-'] then OK
  else if field.all isdigit then OK else NOK

/-! ## validate_fen (apiutil.h lines 708-842), staged -/

def fen_parts_of (fen : List Char) : List (List Char) := get_fen_parts fen ' '

def board_stage (fen : List Char) (v : Variant) : Validation × CharBoard :=
  fill_char_board (CharBoard.init (v.maxRank + 1) (v.maxFile + 1))
    ((fen_parts_of fen).getD 0 []) v

def pockets_stage (fen : List Char) (v : Variant) : Validation × ColorPair (List Char) :=
  if v.pieceDrops then check_pocket_info ((fen_parts_of fen).getD 0 []) (v.maxRank + 1) v
  else (OK, ⟨[], []⟩)

def start_board_of (v : Variant) : CharBoard :=
  (fill_char_board (CharBoard.init (v.maxRank + 1) (v.maxFile + 1)) v.startFen v).2

def king_positions_of (board : CharBoard) (v : Variant) : ColorPair CharSquare :=
  ⟨board.get_square_for_piece (toupper v.kingChar),
   board.get_square_for_piece (tolower v.kingChar)⟩

/-- Castling-rights block of validate_fen (lines 778-806), entered with the king
positions already computed. `some code` is an early return, `none` falls through.
`rookPositionsStart` lists index 0 as the queenside rook and index 1 as the kingside
rook (row-major scan order of the start board). -/
def castling_branch (board : CharBoard) (fenParts : List (List Char)) (v : Variant)
    (kingPositions : ColorPair CharSquare) : Option FenValidation :=
  if v.castling then
    if (fill_castling_info_splitted (fenParts.getD 2 [])).1 = NOK then
      some FEN_INVALID_CASTLING_INFO
    else if (fill_castling_info_splitted (fenParts.getD 2 [])).2.white ≠ [] ∨
        (fill_castling_info_splitted (fenParts.getD 2 [])).2.black ≠ [] then
      if v.chess960 then
        if check_960_castling (fill_castling_info_splitted (fenParts.getD 2 [])).2 board
            (king_positions_of (start_board_of v) v) = NOK then
          some FEN_INVALID_CASTLING_INFO
        else none
      else
        if check_standard_castling (fill_castling_info_splitted (fenParts.getD 2 [])).2 board
            kingPositions (king_positions_of (start_board_of v) v)
            ⟨(start_board_of v).get_squares_for_piece 'R',
              (start_board_of v).get_squares_for_piece 'r'⟩ = NOK then
          some FEN_INVALID_CASTLING_INFO
        else none
    else none
  else none

/-- Royal-king block of validate_fen (lines 759-808): king count, touching kings and
castling rights, all skipped for non-royal or extinction variants. -/
def royal_checks (fenBoard : List Char) (board : CharBoard)
    (pockets : ColorPair (List Char)) (fenParts : List (List Char)) (v : Variant) :
    Option FenValidation :=
  if v.hasKing ∧ v.extinctionEmpty then
    if check_number_of_kings fenBoard v = NOK then some FEN_INVALID_NUMBER_OF_KINGS
    else if no_king_piece_in_pockets pockets then
      if check_touching_kings (king_positions_of board v) = NOK then some FEN_TOUCHING_KINGS
      else castling_branch board fenParts v (king_positions_of board v)
    else none
  else none

/-- Trailing field checks of validate_fen (lines 810-841): side to move, en passant,
half-move and move counters. -/
def validate_fen_tail (fenParts : List (List Char)) (v : Variant) : FenValidation :=
  if (fenParts.getD 1 []).headD '\x00' ≠ 'w' ∧ (fenParts.getD 1 []).headD '\x00' ≠ 'b' then
    FEN_INVALID_SIDE_TO_MOVE
  else if v.doubleStep ∧ v.hasPawn ∧ check_en_passant_square (fenParts.getD 3 []) = NOK then
    FEN_INVALID_EN_PASSANT_SQ
  else if check_digit_field (fenParts.getD (fenParts.length - 2) []) = NOK then
    FEN_INVALID_HALF_MOVE_COUNTER
  else if check_digit_field (fenParts.getD (fenParts.length - 1) []) = NOK then
    FEN_INVALID_MOVE_COUNTER
  else FEN_OK

def validate_fen (fen : List Char) (v : Variant) : FenValidation :=
  if fen.length = 0 then FEN_EMPTY
  else if ' ' ∉ fen then FEN_MISSING_SPACE_DELIM
  else if (fen_parts_of fen).length < (get_fen_parts v.startFen ' ').length ∨
      (fen_parts_of fen).length > min ((get_fen_parts v.startFen ' ').length + 2) 7 then
    FEN_INVALID_NB_PARTS
  else if check_for_valid_characters ((fen_parts_of fen).getD 0 []) v = NOK then
    FEN_INVALID_CHAR
  else if (board_stage fen v).1 = NOK then FEN_INVALID_BOARD_GEOMETRY
  else if (pockets_stage fen v).1 = NOK then FEN_INVALID_POCKET_INFO
  else
    match royal_checks ((fen_parts_of fen).getD 0 []) (board_stage fen v).2
        (pockets_stage fen v).2 (fen_parts_of fen) v with
    | some code => code
    | none => validate_fen_tail (fen_parts_of fen) v

/-- The castling condition the spec states for non-chess960 standard castling: for
every color with requested rights, the king glyph still stands on its starting square
(first occurrence on the parsed board matches the start board), and for each requested
side (kingside `k`, queenside `q`) the rook glyph `R`/`r` still stands on its starting
square, the starting squares being read off the variant's canonical start FEN. -/
def standard_castling_ok_spec (info : ColorPair (List Char))
    (board startBoard : CharBoard) (v : Variant) : Prop :=
  ∀ c : Color, info.get c ≠ [] →
    board.get_square_for_piece (king_glyph v c)
        = startBoard.get_square_for_piece (king_glyph v c) ∧
    ('k' ∈ info.get c →
      board.get_piece_at ((startBoard.get_squares_for_piece (rook_char c)).getD 1 ⟨-1, -1⟩)
        = rook_char c) ∧
    ('q' ∈ info.get c →
      board.get_piece_at ((startBoard.get_squares_for_piece (rook_char c)).getD 0 ⟨-1, -1⟩)
        = rook_char c)

/-! ## Check/checkmate suffix step of move_to_san (apiutil.h lines 276-282) -/

/-- Modelled from the spec: `do_move`, `undo_move` and the legal-reply count
(`MoveList<LEGAL>(pos).size()`) are Position operations whose implementation
(position.h) is not among the given sources, so they are taken as parameters over an
abstract position state `σ`; per the spec's own premise that the counting step can
throw/abort, the reply count may exit abnormally, modelled as `none`.

The step itself is translated from the source: apply the move, then append `'+'` if the
count is non-zero and `'#'` otherwise, then call `undo_move` — three sequential
statements with no scope guard, so an abnormal exit of the count propagates before
`undo_move` runs. The result pairs the suffixed string (`none` on abnormal exit) with
the position state the caller observes afterwards. -/
def move_to_san_check_suffix {σ : Type} (doMove undoMove : σ → σ)
    (countReplies : σ → Option Nat) (san : List Char) (s : σ) :
    Option (List Char) × σ :=
  let s1 := doMove s
  match countReplies s1 with
  | some n => (some (san ++ (if n ≠ 0 then ['+'] else ['#'])), undoMove s1)
  | none => (none, s1)

/-! ## Xiangqi WXF branch of disambiguation_level (apiutil.h lines 150-162) -/

inductive Disambiguation : Type where
  | NO_DISAMBIGUATION
  | FILE_DISAMBIGUATION
  | RANK_DISAMBIGUATION
  | SQUARE_DISAMBIGUATION
deriving DecidableEq

export Disambiguation (NO_DISAMBIGUATION FILE_DISAMBIGUATION RANK_DISAMBIGUATION
  SQUARE_DISAMBIGUATION)

/-- Modelled from the spec: the slice of the Position interface the Xiangqi branch of
`disambiguation_level` reads (types.h / position.h are not among the given sources).
Squares are natural-number indices `rank * nbFiles + file`, so `file_of s = s % nbFiles`
and square ± direction arithmetic is integer arithmetic on the index; `is_ok` is the
bound check `0 ≤ s < nbSquares`. `piecesUsPt` is the bitboard `pos.pieces(us, pt)` of
the mover's color and type, `boardBbUsPt` the movement region `pos.board_bb(us, pt)`. -/
structure XiangqiPos where
  nbFiles : Nat
  nbSquares : Nat
  piecesUsPt : Finset Nat
  boardBbUsPt : Finset Nat

def XiangqiPos.file_of (p : XiangqiPos) (s : Nat) : Nat := s % p.nbFiles

/-- `pos.pieces(us, pt) & file_bb(from)`. -/
def xiangqi_on_file (p : XiangqiPos) (fromSq : Nat) : Finset Nat :=
  p.piecesUsPt.filter (fun s => p.file_of s = p.file_of fromSq)

/-- `is_ok(otherTo) && (pos.board_bb(us, pt) & otherTo)` for the shifted square
`otherTo = s + Direction(to) - Direction(from)`. -/
def xiangqi_shift_ok (p : XiangqiPos) (fromSq toSq s : Nat) : Prop :=
  0 ≤ (s : Int) + (toSq : Int) - (fromSq : Int) ∧
  (s : Int) + (toSq : Int) - (fromSq : Int) < (p.nbSquares : Int) ∧
  ((s : Int) + (toSq : Int) - (fromSq : Int)).toNat ∈ p.boardBbUsPt

instance (p : XiangqiPos) (fromSq toSq s : Nat) :
    Decidable (xiangqi_shift_ok p fromSq toSq s) := by
  unfold xiangqi_shift_ok
  exact inferInstance

/-- `disambiguation_level` specialized to NOTATION_XIANGQI_WXF and a non-drop move:
rank disambiguation (rendered `+` or `-`) if the file holds exactly two pieces of the
mover's color and type and the other piece's shifted destination is a valid target,
else file. `lsb((pieces & file_bb) ^ from)` is the least element of the erased set
(nonempty whenever the mover occupies `from` and the popcount is 2). -/
def xiangqi_disambiguation (p : XiangqiPos) (fromSq toSq : Nat) : Disambiguation :=
  if (xiangqi_on_file p fromSq).card = 2 then
    if h : ((xiangqi_on_file p fromSq).erase fromSq).Nonempty then
      if xiangqi_shift_ok p fromSq toSq (((xiangqi_on_file p fromSq).erase fromSq).min' h)
      then RANK_DISAMBIGUATION
      else FILE_DISAMBIGUATION
    else FILE_DISAMBIGUATION
  else FILE_DISAMBIGUATION

/-- The count side of the rank-disambiguation condition as the claim under review
states it: exactly two same-type same-color pieces excluding the mover share the
origin file. -/
def xiangqi_rank_condition_claimed (p : XiangqiPos) (fromSq : Nat) : Prop :=
  ((p.piecesUsPt.erase fromSq).filter (fun s => p.file_of s = p.file_of fromSq)).card = 2

instance (p : XiangqiPos) (fromSq : Nat) :
    Decidable (xiangqi_rank_condition_claimed p fromSq) := by
  unfold xiangqi_rank_condition_claimed
  exact inferInstance

/-- The rank-disambiguation condition the source implements: the origin file holds
exactly two pieces of the mover's color and type counting the mover itself, and the
other piece's correspondingly shifted destination square is on the board and inside
that piece's movement region. -/
def xiangqi_rank_condition (p : XiangqiPos) (fromSq toSq : Nat) : Prop :=
  (xiangqi_on_file p fromSq).card = 2 ∧
  ∀ s ∈ (xiangqi_on_file p fromSq).erase fromSq, xiangqi_shift_ok p fromSq toSq s

instance (p : XiangqiPos) (fromSq toSq : Nat) :
    Decidable (xiangqi_rank_condition p fromSq toSq) := by
  unfold xiangqi_rank_condition
  exact inferInstance

/-! ## hasInsufficientMaterial (apiutil.h lines 287-320) -/

inductive PieceType : Type where
  | PAWN | KNIGHT | BISHOP | ROOK | QUEEN
  | FERS | ALFIL | FERS_ALFIL | SILVER | GOLD
  | COMMONER | CENTAUR | ARCHBISHOP | CHANCELLOR | ELEPHANT
  | KING
deriving DecidableEq

/-- Modelled from the spec: the read-only Position slice the insufficient-material
evaluator consumes (position.h is not among the given sources). Bitboards are finite
sets of square indices; `countInHand c` is `pos.count_in_hand(c, ALL_PIECES)`,
`extinctionNone` is `pos.extinction_value() == VALUE_NONE`, `captureTheFlagPiece` is
`none` when no flag piece is configured, `pieces c pt` is `pos.pieces(c, pt)`,
`boardBb c pt` is `pos.board_bb(c, pt)`, and `darkSquares` is the DarkSquares
constant bitboard. -/
structure MatPos where
  capturesToHand : Bool
  countInHand : Color → Nat
  extinctionNone : Bool
  captureTheFlagPiece : Option PieceType
  pieces : Color → PieceType → Finset Nat
  boardBb : Color → PieceType → Finset Nat
  pieceTypesList : List PieceType
  promotionPieceTypes : List PieceType
  stalemateDraw : Bool
  darkSquares : Finset Nat

def opColor : Color → Color
  | Color.WHITE => Color.BLACK
  | Color.BLACK => Color.WHITE

def MatPos.piecesColor (pos : MatPos) (c : Color) : Finset Nat :=
  pos.pieceTypesList.foldl (fun acc pt => acc ∪ pos.pieces c pt) ∅

def MatPos.piecesAll (pos : MatPos) : Finset Nat :=
  pos.piecesColor Color.WHITE ∪ pos.piecesColor Color.BLACK

def MatPos.piecesType (pos : MatPos) (pt : PieceType) : Finset Nat :=
  pos.pieces Color.WHITE pt ∪ pos.pieces Color.BLACK pt

/-- `pos.capture_the_flag_piece() && pos.count(c, pos.capture_the_flag_piece())`. -/
def ctf_owned (c : Color) (pos : MatPos) : Prop :=
  match pos.captureTheFlagPiece with
  | some pt => (pos.pieces c pt).card ≠ 0
  | none => False

instance (c : Color) (pos : MatPos) : Decidable (ctf_owned c pos) := by
  unfold ctf_owned
  exact match pos.captureTheFlagPiece with
    | some _ => inferInstanceAs (Decidable _)
    | none => inferInstanceAs (Decidable False)

def matingPieceTypes : List PieceType :=
  [PieceType.ROOK, PieceType.QUEEN, PieceType.ARCHBISHOP, PieceType.CHANCELLOR,
   PieceType.SILVER, PieceType.GOLD, PieceType.COMMONER, PieceType.CENTAUR]

def colorboundPieceTypes : List PieceType :=
  [PieceType.BISHOP, PieceType.FERS, PieceType.FERS_ALFIL, PieceType.ALFIL,
   PieceType.ELEPHANT]

def hasInsufficientMaterial (c : Color) (pos : MatPos) : Bool :=
  -- Other win rules
  if pos.capturesToHand = true ∨ pos.countInHand c ≠ 0 ∨ pos.extinctionNone = false ∨
      ctf_owned c pos then false
  else
    -- Restricted pieces
    let restricted := pos.pieceTypesList.foldl
      (fun acc pt =>
        if pt = PieceType.KING ∨ pos.boardBb c pt ∩ pos.boardBb (opColor c) PieceType.KING = ∅
        then acc ∪ pos.pieces c pt else acc)
      (pos.pieces (opColor c) PieceType.KING)
    -- Mating pieces
    if ∃ pt ∈ matingPieceTypes, pos.pieces c pt \ restricted ≠ ∅ ∨
        ((pos.pieces c PieceType.PAWN).card ≠ 0 ∧ pt ∈ pos.promotionPieceTypes) then false
    else
      -- Color-bound pieces
      let colorbound := colorboundPieceTypes.foldl
        (fun acc pt => acc ∪ (pos.piecesType pt \ restricted)) ∅
      let unbound := symmDiff (symmDiff pos.piecesAll restricted) colorbound
      if colorbound ∩ pos.piecesColor c ≠ ∅ ∧
          ((pos.darkSquares ∩ colorbound ≠ ∅ ∧ colorbound \ pos.darkSquares ≠ ∅) ∨
            unbound ≠ ∅) then false
      -- Unbound pieces require one helper piece of either color
      else if pos.piecesColor c ∩ unbound ≠ ∅ ∧
          (2 ≤ (symmDiff pos.piecesAll restricted).card ∨ pos.stalemateDraw = false) then false
      else true

/-! ## Concrete instances used as witnesses and counterexamples -/

/-- Two same-type same-color pieces on file 0 of a 9-file board (squares 0 and 9, the
mover on 0), moving forward two ranks to square 18; the other piece's shifted target
27 lies in the movement region. -/
def c2pos : XiangqiPos := ⟨9, 90, {0, 9}, {27}⟩

/-- A captures-to-hand position with no pieces anywhere. -/
def demoMatPos : MatPos :=
  ⟨true, fun _ => 0, true, none, fun _ _ => ∅, fun _ _ => ∅, [], [], true, ∅⟩

/-- Two kings on adjacent squares of one rank, otherwise empty board. -/
def touchingFen : List Char := ("8/8/8/3kK3/8/8/8/8 w - - 0 1").toList

/-- Start position with the white kingside rook removed while `KQkq` still requests
kingside rights. -/
def rookMovedFen : List Char :=
  ("rnbqkbnr/pppppppp/8/8/8/8/PPPPPPPP/RNBQKBN1 w KQkq - 0 1").toList

/-- Start position whose en-passant field is the two-character string `--`. -/
def doubleDashEpFen : List Char :=
  ("rnbqkbnr/pppppppp/8/8/8/8/PPPPPPPP/RNBQKBNR w KQkq -- 0 1").toList

/-- Start position with an empty half-move-clock field produced by two consecutive
spaces before the move number. -/
def emptyCounterFen : List Char :=
  ("rnbqkbnr/pppppppp/8/8/8/8/PPPPPPPP/RNBQKBNR w KQkq -  1").toList

/-- A two-part FEN, fewer parts than the standard start FEN's six. -/
def shortFen : List Char := ("rnbq w").toList

/-! # Theorems -/

/-! ## C1: the check/checkmate suffix step and its revert -/

/-- C1 counterexample: the claim asserts the revert executes on every exit path of the
check-suffix step, including an abnormal exit of the reply count, leaving the caller's
position bit-for-bit unchanged. The step's three statements carry no scope guard:
instantiating the abstract state with `Nat`, `doMove = Nat.succ`, `undoMove = Nat.pred`
(which does invert `doMove` at 0) and a counting step that exits abnormally, the final
state is 1, not the original 0 — the position is left mutated. -/
theorem c1_counterexample_revert_skipped :
    (move_to_san_check_suffix Nat.succ Nat.pred (fun _ => none) [] 0).2 = 1 ∧
    Nat.pred (Nat.succ 0) = 0 ∧ (1 : Nat) ≠ 0 := by
  refine ⟨rfl, rfl, by decide⟩

/-- C1 (amended): on the normal path — the reply count completes — move_to_san's
suffix step applies the move, appends `+` when at least one legal reply remains and
`#` otherwise, and then calls undo_move, so whenever undo_move inverts do_move the
caller's position is restored exactly; no guard covers an abnormal exit of the
counting step, on which the mutated position escapes. -/
theorem c1_revert_on_normal_path {σ : Type} (doMove undoMove : σ → σ)
    (countReplies : σ → Option Nat) (san : List Char) (s : σ) (n : Nat)
    (hcount : countReplies (doMove s) = some n)
    (hundo : undoMove (doMove s) = s) :
    move_to_san_check_suffix doMove undoMove countReplies san s
      = (some (san ++ (if n ≠ 0 then ['+'] else ['#'])), s) := by
  simp only [move_to_san_check_suffix, hcount, hundo]

theorem c1_witness :
    (fun _ : Nat => some 0) (Nat.succ 0) = some 0 ∧ Nat.pred (Nat.succ 0) = 0 ∧
    move_to_san_check_suffix Nat.succ Nat.pred (fun _ => some 0) [] 0
      = (some (([] : List Char) ++ (if (0 : Nat) ≠ 0 then ['+'] else ['#'])), 0) :=
  ⟨rfl, rfl, c1_revert_on_normal_path Nat.succ Nat.pred (fun _ => some 0) [] 0 0 rfl rfl⟩

/-! ## C2: Xiangqi WXF disambiguation -/

/-- C2 counterexample: the source tests `popcount(pieces(us, pt) & file_bb(from)) == 2`,
a count that includes the mover, so rank disambiguation fires when exactly ONE other
piece shares the origin file. Here only one piece besides the mover shares the file
(the claimed count excluding the mover is 1, not 2), yet the code returns rank
disambiguation — refuting the claim's "exactly two pieces excluding the mover". -/
theorem c2_counterexample_two_on_file :
    xiangqi_disambiguation c2pos 0 18 = RANK_DISAMBIGUATION ∧
    ¬ xiangqi_rank_condition_claimed c2pos 0 := by
  exact ⟨by decide, by decide⟩

/-- C2 (amended): for a non-drop Xiangqi WXF move whose mover stands on the origin
square, disambiguation_level returns RANK_DISAMBIGUATION exactly when exactly two
same-type same-color pieces INCLUDING the mover (that is, exactly one other piece)
share the origin file and the other piece's destination square, shifted by the mover's
displacement, is on the board and within that piece's movement region; in every other
Xiangqi case it returns FILE_DISAMBIGUATION. -/
theorem c2_xiangqi_rank_iff (p : XiangqiPos) (fromSq toSq : Nat)
    (hm : fromSq ∈ p.piecesUsPt) :
    (xiangqi_disambiguation p fromSq toSq = RANK_DISAMBIGUATION ↔
      xiangqi_rank_condition p fromSq toSq) ∧
    (¬ xiangqi_rank_condition p fromSq toSq →
      xiangqi_disambiguation p fromSq toSq = FILE_DISAMBIGUATION) := by
  have htot : xiangqi_disambiguation p fromSq toSq = RANK_DISAMBIGUATION ∨
      xiangqi_disambiguation p fromSq toSq = FILE_DISAMBIGUATION := by
    unfold xiangqi_disambiguation
    split_ifs <;> simp
  have hiff : xiangqi_disambiguation p fromSq toSq = RANK_DISAMBIGUATION ↔
      xiangqi_rank_condition p fromSq toSq := by
    unfold xiangqi_disambiguation xiangqi_rank_condition
    by_cases hcard : (xiangqi_on_file p fromSq).card = 2
    · rw [if_pos hcard]
      have hfrom : fromSq ∈ xiangqi_on_file p fromSq :=
        Finset.mem_filter.mpr ⟨hm, rfl⟩
      have hcarde : ((xiangqi_on_file p fromSq).erase fromSq).card = 1 := by
        rw [Finset.card_erase_of_mem hfrom, hcard]
      have huniq := Finset.card_le_one.mp (le_of_eq hcarde)
      have hne : ((xiangqi_on_file p fromSq).erase fromSq).Nonempty :=
        Finset.card_pos.mp (by rw [hcarde]; exact Nat.one_pos)
      rw [dif_pos hne]
      constructor
      · intro h
        split_ifs at h with hC
        refine ⟨hcard, ?_⟩
        intro s hs
        rw [huniq s hs _ (Finset.min'_mem _ hne)]
        exact hC
      · rintro ⟨-, hall⟩
        rw [if_pos (hall _ (Finset.min'_mem _ hne))]
    · rw [if_neg hcard]
      constructor
      · intro h
        exact absurd h (by decide)
      · rintro ⟨hc, -⟩
        exact absurd hc hcard
  exact ⟨hiff, fun hn => htot.resolve_left (fun hr => hn (hiff.mp hr))⟩

theorem c2_witness :
    0 ∈ c2pos.piecesUsPt ∧
    ((xiangqi_disambiguation c2pos 0 18 = RANK_DISAMBIGUATION ↔
        xiangqi_rank_condition c2pos 0 18) ∧
      (¬ xiangqi_rank_condition c2pos 0 18 →
        xiangqi_disambiguation c2pos 0 18 = FILE_DISAMBIGUATION)) :=
  ⟨by decide, c2_xiangqi_rank_iff c2pos 0 18 (by decide)⟩

/-! ## C7: insufficient-material early exits -/

/-- C7: hasInsufficientMaterial reports sufficient material (false) immediately when
captures go to hand, or the color holds a piece in hand, or an extinction win
condition is configured, or a capture-the-flag piece is configured and the color owns
at least one. -/
theorem c7_insufficient_early_false (c : Color) (pos : MatPos)
    (h : pos.capturesToHand = true ∨ pos.countInHand c ≠ 0 ∨ pos.extinctionNone = false ∨
      ctf_owned c pos) :
    hasInsufficientMaterial c pos = false := by
  unfold hasInsufficientMaterial
  rw [if_pos h]

theorem c7_witness :
    (demoMatPos.capturesToHand = true ∨ demoMatPos.countInHand Color.WHITE ≠ 0 ∨
      demoMatPos.extinctionNone = false ∨ ctf_owned Color.WHITE demoMatPos) ∧
    hasInsufficientMaterial Color.WHITE demoMatPos = false :=
  ⟨Or.inl rfl, c7_insufficient_early_false Color.WHITE demoMatPos (Or.inl rfl)⟩

/-! ## C8: two-digit empty-square runs in fill_char_board -/

theorem isdigit_not_break (c : Char) (h : isdigit c = true) : ¬ (c = ' ' ∨ c = '[') := by
  rintro (rfl | rfl) <;> exact absurd h (by decide)

/-- C8: in fill_char_board's loop, a digit character advances the file index by its own
value (no nine-fold term when the previous character is not a digit), a digit that
immediately follows another digit additionally advances it by nine times the preceding
digit's value, and hence two consecutive digits d1 d2 read from a non-digit context
advance the file index by exactly 10*d1 + d2 empty squares. -/
theorem c8_digit_run_length (v : Variant) (b : CharBoard) (rankIdx fileIdx : Nat)
    (prevChar c1 c2 : Char) (cs : List Char)
    (h1 : isdigit c1 = true) (h2 : isdigit c2 = true) (hp : isdigit prevChar = false) :
    (fill_loop v b rankIdx fileIdx prevChar (c1 :: c2 :: cs)
        = fill_loop v b rankIdx (fileIdx + digitVal c1) c1 (c2 :: cs)) ∧
    (fill_loop v b rankIdx (fileIdx + digitVal c1) c1 (c2 :: cs)
        = fill_loop v b rankIdx (fileIdx + digitVal c1 + digitVal c2 + 9 * digitVal c1) c2 cs) ∧
    (fill_loop v b rankIdx fileIdx prevChar (c1 :: c2 :: cs)
        = fill_loop v b rankIdx (fileIdx + (10 * digitVal c1 + digitVal c2)) c2 cs) := by
  have e1 : fill_loop v b rankIdx fileIdx prevChar (c1 :: c2 :: cs)
      = fill_loop v b rankIdx (fileIdx + digitVal c1) c1 (c2 :: cs) := by
    rw [fill_loop, if_neg (isdigit_not_break c1 h1), if_pos h1, if_neg (by simp [hp]),
      Nat.add_zero]
  have e2 : fill_loop v b rankIdx (fileIdx + digitVal c1) c1 (c2 :: cs)
      = fill_loop v b rankIdx (fileIdx + digitVal c1 + digitVal c2 + 9 * digitVal c1) c2 cs := by
    rw [fill_loop, if_neg (isdigit_not_break c2 h2), if_pos h2, if_pos h1]
  refine ⟨e1, e2, ?_⟩
  rw [e1, e2]
  have : fileIdx + digitVal c1 + digitVal c2 + 9 * digitVal c1
      = fileIdx + (10 * digitVal c1 + digitVal c2) := by omega
  rw [this]

theorem c8_witness :
    isdigit '2' = true ∧ isdigit '1' = true ∧ isdigit '?' = false ∧
    ((fill_loop stdChess (CharBoard.init 8 8) 0 0 '?' ['2', '1']
        = fill_loop stdChess (CharBoard.init 8 8) 0 (0 + digitVal '2') '2' ['1']) ∧
      (fill_loop stdChess (CharBoard.init 8 8) 0 (0 + digitVal '2') '2' ['1']
        = fill_loop stdChess (CharBoard.init 8 8) 0
            (0 + digitVal '2' + digitVal '1' + 9 * digitVal '2') '1' []) ∧
      (fill_loop stdChess (CharBoard.init 8 8) 0 0 '?' ['2', '1']
        = fill_loop stdChess (CharBoard.init 8 8) 0 (0 + (10 * digitVal '2' + digitVal '1'))
            '1' [])) :=
  ⟨by decide, by decide, by decide,
    c8_digit_run_length stdChess (CharBoard.init 8 8) 0 0 '?' '2' '1' []
      (by decide) (by decide) (by decide)⟩

/-! ## Shared lemmas about validate_fen's stage structure -/

theorem validation_not_nok {x : Validation} (h : x ≠ NOK) : x = OK := by
  cases x
  · exact absurd rfl h
  · rfl

theorem ok_ne_nok {x : Validation} (h : x = OK) : x ≠ NOK := by
  rw [h]
  simp

/-- The trailing field checks can only produce their own four codes or OK. -/
theorem tail_codes (fenParts : List (List Char)) (v : Variant) :
    validate_fen_tail fenParts v = FEN_INVALID_SIDE_TO_MOVE ∨
    validate_fen_tail fenParts v = FEN_INVALID_EN_PASSANT_SQ ∨
    validate_fen_tail fenParts v = FEN_INVALID_HALF_MOVE_COUNTER ∨
    validate_fen_tail fenParts v = FEN_INVALID_MOVE_COUNTER ∨
    validate_fen_tail fenParts v = FEN_OK := by
  unfold validate_fen_tail
  split_ifs <;> simp

/-- The castling block can only early-return the castling-info code. -/
theorem castling_branch_code (board : CharBoard) (fenParts : List (List Char))
    (v : Variant) (kingPositions : ColorPair CharSquare) (code : FenValidation)
    (h : castling_branch board fenParts v kingPositions = some code) :
    code = FEN_INVALID_CASTLING_INFO := by
  unfold castling_branch at h
  split_ifs at h <;> simp_all

/-- A code early-returned by the royal-king block is one of the three king-related
codes, the block only runs for royal-king variants without extinction types, and the
two geometry codes additionally require king-free pockets. -/
theorem royal_checks_code (fenBoard : List Char) (board : CharBoard)
    (pockets : ColorPair (List Char)) (fenParts : List (List Char)) (v : Variant)
    (code : FenValidation)
    (h : royal_checks fenBoard board pockets fenParts v = some code) :
    (code = FEN_INVALID_NUMBER_OF_KINGS ∨ code = FEN_TOUCHING_KINGS ∨
      code = FEN_INVALID_CASTLING_INFO) ∧
    v.hasKing = true ∧ v.extinctionEmpty = true ∧
    (code ≠ FEN_INVALID_NUMBER_OF_KINGS → no_king_piece_in_pockets pockets = true) := by
  unfold royal_checks at h
  split_ifs at h with h1 h2 h3 h4
  · injection h with h'
    subst h'
    exact ⟨Or.inl rfl, h1.1, h1.2, fun hne => absurd rfl hne⟩
  · injection h with h'
    subst h'
    exact ⟨Or.inr (Or.inl rfl), h1.1, h1.2, fun _ => h3⟩
  · have hc := castling_branch_code _ _ _ _ _ h
    subst hc
    exact ⟨Or.inr (Or.inr rfl), h1.1, h1.2, fun _ => h3⟩

/-- Once the layout, character, geometry and pocket stages pass, validate_fen is
decided by the royal-king block and then the trailing field checks. -/
theorem validate_fen_reaches_royal (fen : List Char) (v : Variant)
    (h1 : fen.length ≠ 0) (h2 : ' ' ∈ fen)
    (h3 : ¬((fen_parts_of fen).length < (get_fen_parts v.startFen ' ').length ∨
      (fen_parts_of fen).length > min ((get_fen_parts v.startFen ' ').length + 2) 7))
    (h4 : check_for_valid_characters ((fen_parts_of fen).getD 0 []) v ≠ NOK)
    (h5 : (board_stage fen v).1 ≠ NOK)
    (h6 : (pockets_stage fen v).1 ≠ NOK) :
    validate_fen fen v =
      match royal_checks ((fen_parts_of fen).getD 0 []) (board_stage fen v).2
          (pockets_stage fen v).2 (fen_parts_of fen) v with
      | some code => code
      | none => validate_fen_tail (fen_parts_of fen) v := by
  unfold validate_fen
  rw [if_neg h1, if_neg (not_not_intro h2), if_neg h3, if_neg h4, if_neg h5, if_neg h6]

theorem check_touching_kings_nok (kp : ColorPair CharSquare) :
    check_touching_kings kp = NOK ↔
      non_root_euclidian_distance kp.white kp.black ≤ 2 := by
  unfold check_touching_kings
  split_ifs with h <;> simp [h]

/-! ## C4: touching kings -/

/-- C4: for a royal-king variant without extinction types, with no king glyph in a
pocket and the layout, character, geometry, pocket and king-count checks passing,
validate_fen returns FEN_TOUCHING_KINGS exactly when the squared Euclidean distance
between the first white and black king glyphs of the parsed board is at most 2. -/
theorem c4_touching_kings_iff (fen : List Char) (v : Variant)
    (hk : v.hasKing = true) (he : v.extinctionEmpty = true)
    (h1 : fen.length ≠ 0) (h2 : ' ' ∈ fen)
    (h3 : ¬((fen_parts_of fen).length < (get_fen_parts v.startFen ' ').length ∨
      (fen_parts_of fen).length > min ((get_fen_parts v.startFen ' ').length + 2) 7))
    (h4 : check_for_valid_characters ((fen_parts_of fen).getD 0 []) v ≠ NOK)
    (h5 : (board_stage fen v).1 ≠ NOK)
    (h6 : (pockets_stage fen v).1 ≠ NOK)
    (h7 : check_number_of_kings ((fen_parts_of fen).getD 0 []) v ≠ NOK)
    (h8 : no_king_piece_in_pockets (pockets_stage fen v).2 = true) :
    validate_fen fen v = FEN_TOUCHING_KINGS ↔
      non_root_euclidian_distance (king_positions_of (board_stage fen v).2 v).white
        (king_positions_of (board_stage fen v).2 v).black ≤ 2 := by
  rw [validate_fen_reaches_royal fen v h1 h2 h3 h4 h5 h6]
  unfold royal_checks
  rw [if_pos ⟨hk, he⟩, if_neg h7, if_pos h8]
  by_cases ht : non_root_euclidian_distance (king_positions_of (board_stage fen v).2 v).white
      (king_positions_of (board_stage fen v).2 v).black ≤ 2
  · rw [if_pos ((check_touching_kings_nok _).mpr ht)]
    simp [ht]
  · rw [if_neg (fun hNOK => ht ((check_touching_kings_nok _).mp hNOK))]
    rcases hcb : castling_branch (board_stage fen v).2 (fen_parts_of fen) v
        (king_positions_of (board_stage fen v).2 v) with _ | code
    · rcases tail_codes (fen_parts_of fen) v with hta|hta|hta|hta|hta <;> simp [hta, ht]
    · have := castling_branch_code _ _ _ _ _ hcb
      subst this
      simp [ht]

theorem c4_witness :
    stdChess.hasKing = true ∧ stdChess.extinctionEmpty = true ∧
    touchingFen.length ≠ 0 ∧ ' ' ∈ touchingFen ∧
    ¬((fen_parts_of touchingFen).length < (get_fen_parts stdChess.startFen ' ').length ∨
      (fen_parts_of touchingFen).length >
        min ((get_fen_parts stdChess.startFen ' ').length + 2) 7) ∧
    check_for_valid_characters ((fen_parts_of touchingFen).getD 0 []) stdChess ≠ NOK ∧
    (board_stage touchingFen stdChess).1 ≠ NOK ∧
    (pockets_stage touchingFen stdChess).1 ≠ NOK ∧
    check_number_of_kings ((fen_parts_of touchingFen).getD 0 []) stdChess ≠ NOK ∧
    no_king_piece_in_pockets (pockets_stage touchingFen stdChess).2 = true ∧
    (validate_fen touchingFen stdChess = FEN_TOUCHING_KINGS ↔
      non_root_euclidian_distance
        (king_positions_of (board_stage touchingFen stdChess).2 stdChess).white
        (king_positions_of (board_stage touchingFen stdChess).2 stdChess).black ≤ 2) :=
  ⟨rfl, rfl, by decide, by decide, by decide, by decide, by decide, by decide, by decide,
    by decide,
    c4_touching_kings_iff touchingFen stdChess rfl rfl (by decide) (by decide) (by decide)
      (by decide) (by decide) (by decide) (by decide) (by decide)⟩

/-! ## C5: part-count window -/

/-- C5: for a non-empty FEN containing a space, validate_fen returns
FEN_INVALID_NB_PARTS exactly when the number of space-separated parts is below the
part count of the variant's canonical start FEN or above min(expected + 2, 7). -/
theorem c5_nb_parts_iff (fen : List Char) (v : Variant)
    (h1 : fen.length ≠ 0) (h2 : ' ' ∈ fen) :
    validate_fen fen v = FEN_INVALID_NB_PARTS ↔
      ((fen_parts_of fen).length < (get_fen_parts v.startFen ' ').length ∨
        (fen_parts_of fen).length > min ((get_fen_parts v.startFen ' ').length + 2) 7) := by
  unfold validate_fen
  rw [if_neg h1, if_neg (not_not_intro h2)]
  by_cases h3 : (fen_parts_of fen).length < (get_fen_parts v.startFen ' ').length ∨
      (fen_parts_of fen).length > min ((get_fen_parts v.startFen ' ').length + 2) 7
  · rw [if_pos h3]
    exact iff_of_true rfl h3
  · rw [if_neg h3]
    have hne : (if check_for_valid_characters ((fen_parts_of fen).getD 0 []) v = NOK then
        FEN_INVALID_CHAR
      else if (board_stage fen v).1 = NOK then FEN_INVALID_BOARD_GEOMETRY
      else if (pockets_stage fen v).1 = NOK then FEN_INVALID_POCKET_INFO
      else
        match royal_checks ((fen_parts_of fen).getD 0 []) (board_stage fen v).2
            (pockets_stage fen v).2 (fen_parts_of fen) v with
        | some code => code
        | none => validate_fen_tail (fen_parts_of fen) v) ≠ FEN_INVALID_NB_PARTS := by
      split_ifs with g1 g2 g3
      · simp
      · simp
      · simp
      · rcases hro : royal_checks ((fen_parts_of fen).getD 0 []) (board_stage fen v).2
            (pockets_stage fen v).2 (fen_parts_of fen) v with _ | code
        · rcases tail_codes (fen_parts_of fen) v with hta|hta|hta|hta|hta <;> simp [hta]
        · obtain ⟨hcodes, -⟩ := royal_checks_code _ _ _ _ _ _ hro
          rcases hcodes with rfl|rfl|rfl <;> simp
    exact iff_of_false hne h3

theorem c5_witness :
    shortFen.length ≠ 0 ∧ ' ' ∈ shortFen ∧
    (validate_fen shortFen stdChess = FEN_INVALID_NB_PARTS ↔
      ((fen_parts_of shortFen).length < (get_fen_parts stdChess.startFen ' ').length ∨
        (fen_parts_of shortFen).length >
          min ((get_fen_parts stdChess.startFen ' ').length + 2) 7)) :=
  ⟨by decide, by decide, c5_nb_parts_iff shortFen stdChess (by decide) (by decide)⟩

/-! ## C3: standard castling rights -/

/-- Per-color loop body of check_standard_castling, characterized declaratively. -/
theorem check_standard_color_ok (info : ColorPair (List Char))
    (board startBoard : CharBoard) (v : Variant) (c : Color) :
    check_standard_color info board (king_positions_of board v)
        (king_positions_of startBoard v)
        ⟨startBoard.get_squares_for_piece 'R', startBoard.get_squares_for_piece 'r'⟩ c
        = OK ↔
      (info.get c ≠ [] →
        board.get_square_for_piece (king_glyph v c)
            = startBoard.get_square_for_piece (king_glyph v c) ∧
        ('k' ∈ info.get c → board.get_piece_at
            ((startBoard.get_squares_for_piece (rook_char c)).getD 1 ⟨-1, -1⟩)
              = rook_char c) ∧
        ('q' ∈ info.get c → board.get_piece_at
            ((startBoard.get_squares_for_piece (rook_char c)).getD 0 ⟨-1, -1⟩)
              = rook_char c)) := by
  cases c <;>
    (simp only [check_standard_color, king_positions_of, king_glyph, rook_char,
      ColorPair.get]
     split_ifs with g1 g2 g3 g4 <;> simp_all)

theorem check_standard_castling_ok_iff (info : ColorPair (List Char))
    (board startBoard : CharBoard) (v : Variant) :
    check_standard_castling info board (king_positions_of board v)
        (king_positions_of startBoard v)
        ⟨startBoard.get_squares_for_piece 'R', startBoard.get_squares_for_piece 'r'⟩
        = OK ↔
      standard_castling_ok_spec info board startBoard v := by
  unfold check_standard_castling standard_castling_ok_spec
  constructor
  · intro h c
    by_cases hw : check_standard_color info board (king_positions_of board v)
        (king_positions_of startBoard v)
        ⟨startBoard.get_squares_for_piece 'R', startBoard.get_squares_for_piece 'r'⟩
        Color.WHITE = NOK
    · rw [if_pos hw] at h
      exact absurd h (by simp)
    · rw [if_neg hw] at h
      cases c
      · exact (check_standard_color_ok info board startBoard v Color.WHITE).mp
          (validation_not_nok hw)
      · exact (check_standard_color_ok info board startBoard v Color.BLACK).mp h
  · intro hall
    rw [if_neg (ok_ne_nok ((check_standard_color_ok info board startBoard v
        Color.WHITE).mpr (hall Color.WHITE)))]
    exact (check_standard_color_ok info board startBoard v Color.BLACK).mpr
      (hall Color.BLACK)

/-- In the non-chess960 case with parseable, non-empty castling requests, the castling
block reduces to the standard-castling check. -/
theorem castling_branch_standard (board : CharBoard) (fenParts : List (List Char))
    (v : Variant) (kp : ColorPair CharSquare)
    (hc : v.castling = true) (hng : v.chess960 = false)
    (h10 : (fill_castling_info_splitted (fenParts.getD 2 [])).1 ≠ NOK)
    (h11 : (fill_castling_info_splitted (fenParts.getD 2 [])).2.white ≠ [] ∨
      (fill_castling_info_splitted (fenParts.getD 2 [])).2.black ≠ []) :
    castling_branch board fenParts v kp =
      (if check_standard_castling (fill_castling_info_splitted (fenParts.getD 2 [])).2
          board kp (king_positions_of (start_board_of v) v)
          ⟨(start_board_of v).get_squares_for_piece 'R',
            (start_board_of v).get_squares_for_piece 'r'⟩ = NOK then
        some FEN_INVALID_CASTLING_INFO
      else none) := by
  unfold castling_branch
  rw [if_pos hc, if_neg h10, if_pos h11, hng, if_neg Bool.false_ne_true]

/-- C3: for a non-chess960 royal-king variant with castling enabled and no extinction
types, when no king glyph sits in a pocket, the castling field parses and requests
rights for at least one side, and every earlier check passes, validate_fen returns
FEN_INVALID_CASTLING_INFO exactly when the spec-side condition fails: some color with
requested rights has its king glyph away from its starting square, or a requested
side's rook glyph away from its starting square as read off the canonical start FEN. -/
theorem c3_standard_castling_iff (fen : List Char) (v : Variant)
    (hng : v.chess960 = false) (hc : v.castling = true)
    (hk : v.hasKing = true) (he : v.extinctionEmpty = true)
    (h1 : fen.length ≠ 0) (h2 : ' ' ∈ fen)
    (h3 : ¬((fen_parts_of fen).length < (get_fen_parts v.startFen ' ').length ∨
      (fen_parts_of fen).length > min ((get_fen_parts v.startFen ' ').length + 2) 7))
    (h4 : check_for_valid_characters ((fen_parts_of fen).getD 0 []) v ≠ NOK)
    (h5 : (board_stage fen v).1 ≠ NOK)
    (h6 : (pockets_stage fen v).1 ≠ NOK)
    (h7 : check_number_of_kings ((fen_parts_of fen).getD 0 []) v ≠ NOK)
    (h8 : no_king_piece_in_pockets (pockets_stage fen v).2 = true)
    (h9 : check_touching_kings (king_positions_of (board_stage fen v).2 v) ≠ NOK)
    (h10 : (fill_castling_info_splitted ((fen_parts_of fen).getD 2 [])).1 ≠ NOK)
    (h11 : (fill_castling_info_splitted ((fen_parts_of fen).getD 2 [])).2.white ≠ [] ∨
      (fill_castling_info_splitted ((fen_parts_of fen).getD 2 [])).2.black ≠ []) :
    validate_fen fen v = FEN_INVALID_CASTLING_INFO ↔
      ¬ standard_castling_ok_spec
        (fill_castling_info_splitted ((fen_parts_of fen).getD 2 [])).2
        (board_stage fen v).2 (start_board_of v) v := by
  rw [validate_fen_reaches_royal fen v h1 h2 h3 h4 h5 h6]
  unfold royal_checks
  rw [if_pos ⟨hk, he⟩, if_neg h7, if_pos h8, if_neg h9,
    castling_branch_standard _ _ _ _ hc hng h10 h11]
  by_cases hstd : check_standard_castling
      (fill_castling_info_splitted ((fen_parts_of fen).getD 2 [])).2 (board_stage fen v).2
      (king_positions_of (board_stage fen v).2 v) (king_positions_of (start_board_of v) v)
      ⟨(start_board_of v).get_squares_for_piece 'R',
        (start_board_of v).get_squares_for_piece 'r'⟩ = NOK
  · rw [if_pos hstd]
    exact iff_of_true rfl
      (fun hspec => ok_ne_nok ((check_standard_castling_ok_iff _ _ _ _).mpr hspec) hstd)
  · rw [if_neg hstd]
    have hspec := (check_standard_castling_ok_iff _ _ _ _).mp (validation_not_nok hstd)
    refine iff_of_false (fun hx => ?_) (not_not_intro hspec)
    rcases tail_codes (fen_parts_of fen) v with hta|hta|hta|hta|hta <;>
      (rw [hta] at hx; exact FenValidation.noConfusion hx)

theorem c3_witness :
    stdChess.chess960 = false ∧ stdChess.castling = true ∧
    stdChess.hasKing = true ∧ stdChess.extinctionEmpty = true ∧
    rookMovedFen.length ≠ 0 ∧ ' ' ∈ rookMovedFen ∧
    ¬((fen_parts_of rookMovedFen).length < (get_fen_parts stdChess.startFen ' ').length ∨
      (fen_parts_of rookMovedFen).length >
        min ((get_fen_parts stdChess.startFen ' ').length + 2) 7) ∧
    check_for_valid_characters ((fen_parts_of rookMovedFen).getD 0 []) stdChess ≠ NOK ∧
    (board_stage rookMovedFen stdChess).1 ≠ NOK ∧
    (pockets_stage rookMovedFen stdChess).1 ≠ NOK ∧
    check_number_of_kings ((fen_parts_of rookMovedFen).getD 0 []) stdChess ≠ NOK ∧
    no_king_piece_in_pockets (pockets_stage rookMovedFen stdChess).2 = true ∧
    check_touching_kings (king_positions_of (board_stage rookMovedFen stdChess).2 stdChess)
      ≠ NOK ∧
    (fill_castling_info_splitted ((fen_parts_of rookMovedFen).getD 2 [])).1 ≠ NOK ∧
    ((fill_castling_info_splitted ((fen_parts_of rookMovedFen).getD 2 [])).2.white ≠ [] ∨
      (fill_castling_info_splitted ((fen_parts_of rookMovedFen).getD 2 [])).2.black ≠ []) ∧
    (validate_fen rookMovedFen stdChess = FEN_INVALID_CASTLING_INFO ↔
      ¬ standard_castling_ok_spec
        (fill_castling_info_splitted ((fen_parts_of rookMovedFen).getD 2 [])).2
        (board_stage rookMovedFen stdChess).2 (start_board_of stdChess) stdChess) :=
  ⟨rfl, rfl, rfl, rfl, by decide, by decide, by decide, by decide, by decide, by decide,
    by decide, by decide, by decide, by decide, by decide,
    c3_standard_castling_iff rookMovedFen stdChess rfl rfl rfl rfl (by decide) (by decide)
      (by decide) (by decide) (by decide) (by decide) (by decide) (by decide) (by decide)
      (by decide) (by decide)⟩

/-! ## C6: en-passant field -/

/-- The field shapes check_en_passant_square accepts: any field whose first character
is `-` (the source only tests the first character), or exactly two characters with a
non-digit first and digit second character. -/
theorem check_en_passant_nok_iff (ep : List Char) :
    check_en_passant_square ep = NOK ↔
      ¬(ep.headD '\x00' = '-' ∨
        (ep.length = 2 ∧ isdigit (ep.headD '\x00') = false ∧
          isdigit (ep.getD 1 '\x00') = true)) := by
  unfold check_en_passant_square
  split_ifs with g1 g2 g3 g4 <;> simp_all

/-- The en-passant code is only ever produced under the double-step and pawn flags. -/
theorem validate_fen_ep_inv (fen : List Char) (v : Variant)
    (h : validate_fen fen v = FEN_INVALID_EN_PASSANT_SQ) :
    v.doubleStep = true ∧ v.hasPawn = true := by
  unfold validate_fen at h
  split_ifs at h
  rcases hro : royal_checks ((fen_parts_of fen).getD 0 []) (board_stage fen v).2
      (pockets_stage fen v).2 (fen_parts_of fen) v with _ | code
  · rw [hro] at h
    change validate_fen_tail (fen_parts_of fen) v = FEN_INVALID_EN_PASSANT_SQ at h
    unfold validate_fen_tail at h
    split_ifs at h with t1 t2
    exact ⟨t2.1, t2.2.1⟩
  · rw [hro] at h
    obtain ⟨hcodes, -⟩ := royal_checks_code _ _ _ _ _ _ hro
    rcases hcodes with rfl|rfl|rfl <;> exact FenValidation.noConfusion h

/-- C6 counterexample: the two-character field `--` is neither the single character
`-` nor a non-digit/digit pair, so the claim demands FEN_INVALID_EN_PASSANT_SQ, yet
validate_fen accepts the position (the source only inspects the first character of the
field before declaring it a no-en-passant marker). -/
theorem c6_counterexample_dash_prefix :
    stdChess.doubleStep = true ∧ stdChess.hasPawn = true ∧
    (fen_parts_of doubleDashEpFen).getD 3 [] = ['-', '-'] ∧
    (fen_parts_of doubleDashEpFen).getD 3 [] ≠ ['-'] ∧
    ¬(((fen_parts_of doubleDashEpFen).getD 3 []).length = 2 ∧
      isdigit (((fen_parts_of doubleDashEpFen).getD 3 []).headD '\x00') = false ∧
      isdigit (((fen_parts_of doubleDashEpFen).getD 3 []).getD 1 '\x00') = true) ∧
    validate_fen doubleDashEpFen stdChess = FEN_OK :=
  ⟨rfl, rfl, by decide, by decide, by decide, by decide⟩

/-- C6 (amended): under the double-step and pawn flags, with every earlier check
passing (including the royal-king block falling through) and a valid side-to-move
field, validate_fen returns FEN_INVALID_EN_PASSANT_SQ exactly when the en-passant
field neither starts with `-` nor consists of exactly two characters with a non-digit
first and a digit second character; and the en-passant code is never produced when
double-step or the pawn type is absent. -/
theorem c6_en_passant_iff (fen : List Char) (v : Variant)
    (hd : v.doubleStep = true) (hpw : v.hasPawn = true)
    (h1 : fen.length ≠ 0) (h2 : ' ' ∈ fen)
    (h3 : ¬((fen_parts_of fen).length < (get_fen_parts v.startFen ' ').length ∨
      (fen_parts_of fen).length > min ((get_fen_parts v.startFen ' ').length + 2) 7))
    (h4 : check_for_valid_characters ((fen_parts_of fen).getD 0 []) v ≠ NOK)
    (h5 : (board_stage fen v).1 ≠ NOK)
    (h6 : (pockets_stage fen v).1 ≠ NOK)
    (hro : royal_checks ((fen_parts_of fen).getD 0 []) (board_stage fen v).2
      (pockets_stage fen v).2 (fen_parts_of fen) v = none)
    (hstm : ¬(((fen_parts_of fen).getD 1 []).headD '\x00' ≠ 'w' ∧
      ((fen_parts_of fen).getD 1 []).headD '\x00' ≠ 'b')) :
    (validate_fen fen v = FEN_INVALID_EN_PASSANT_SQ ↔
      ¬(((fen_parts_of fen).getD 3 []).headD '\x00' = '-' ∨
        (((fen_parts_of fen).getD 3 []).length = 2 ∧
          isdigit (((fen_parts_of fen).getD 3 []).headD '\x00') = false ∧
          isdigit (((fen_parts_of fen).getD 3 []).getD 1 '\x00') = true))) ∧
    (∀ fen2 : List Char, ∀ v2 : Variant,
      validate_fen fen2 v2 = FEN_INVALID_EN_PASSANT_SQ →
        v2.doubleStep = true ∧ v2.hasPawn = true) := by
  refine ⟨?_, fun fen2 v2 h => validate_fen_ep_inv fen2 v2 h⟩
  have hmr : validate_fen fen v = validate_fen_tail (fen_parts_of fen) v := by
    rw [validate_fen_reaches_royal fen v h1 h2 h3 h4 h5 h6, hro]
  rw [hmr]
  unfold validate_fen_tail
  rw [if_neg hstm]
  by_cases hep : check_en_passant_square ((fen_parts_of fen).getD 3 []) = NOK
  · rw [if_pos ⟨hd, hpw, hep⟩]
    exact iff_of_true rfl ((check_en_passant_nok_iff _).mp hep)
  · rw [if_neg (fun hcond => hep hcond.2.2)]
    have hacc := not_not.mp (fun hna => hep ((check_en_passant_nok_iff _).mpr hna))
    exact iff_of_false (by split_ifs <;> simp) (not_not_intro hacc)

theorem c6_witness :
    stdChess.doubleStep = true ∧ stdChess.hasPawn = true ∧
    doubleDashEpFen.length ≠ 0 ∧ ' ' ∈ doubleDashEpFen ∧
    ¬((fen_parts_of doubleDashEpFen).length < (get_fen_parts stdChess.startFen ' ').length ∨
      (fen_parts_of doubleDashEpFen).length >
        min ((get_fen_parts stdChess.startFen ' ').length + 2) 7) ∧
    check_for_valid_characters ((fen_parts_of doubleDashEpFen).getD 0 []) stdChess ≠ NOK ∧
    (board_stage doubleDashEpFen stdChess).1 ≠ NOK ∧
    (pockets_stage doubleDashEpFen stdChess).1 ≠ NOK ∧
    royal_checks ((fen_parts_of doubleDashEpFen).getD 0 [])
      (board_stage doubleDashEpFen stdChess).2 (pockets_stage doubleDashEpFen stdChess).2
      (fen_parts_of doubleDashEpFen) stdChess = none ∧
    ¬(((fen_parts_of doubleDashEpFen).getD 1 []).headD '\x00' ≠ 'w' ∧
      ((fen_parts_of doubleDashEpFen).getD 1 []).headD '\x00' ≠ 'b') ∧
    ((validate_fen doubleDashEpFen stdChess = FEN_INVALID_EN_PASSANT_SQ ↔
      ¬(((fen_parts_of doubleDashEpFen).getD 3 []).headD '\x00' = '-' ∨
        (((fen_parts_of doubleDashEpFen).getD 3 []).length = 2 ∧
          isdigit (((fen_parts_of doubleDashEpFen).getD 3 []).headD '\x00') = false ∧
          isdigit (((fen_parts_of doubleDashEpFen).getD 3 []).getD 1 '\x00') = true))) ∧
    (∀ fen2 : List Char, ∀ v2 : Variant,
      validate_fen fen2 v2 = FEN_INVALID_EN_PASSANT_SQ →
        v2.doubleStep = true ∧ v2.hasPawn = true)) :=
  ⟨rfl, rfl, by decide, by decide, by decide, by decide, by decide, by decide, by decide,
    by decide,
    c6_en_passant_iff doubleDashEpFen stdChess rfl rfl (by decide) (by decide) (by decide)
      (by decide) (by decide) (by decide) (by decide) (by decide)⟩

/-! ## C9: empty half-move and move-counter fields -/

theorem validate_fen_half_inv (fen : List Char) (v : Variant)
    (h : validate_fen fen v = FEN_INVALID_HALF_MOVE_COUNTER) :
    check_digit_field ((fen_parts_of fen).getD ((fen_parts_of fen).length - 2) [])
      = NOK := by
  unfold validate_fen at h
  split_ifs at h
  rcases hro : royal_checks ((fen_parts_of fen).getD 0 []) (board_stage fen v).2
      (pockets_stage fen v).2 (fen_parts_of fen) v with _ | code
  · rw [hro] at h
    change validate_fen_tail (fen_parts_of fen) v = FEN_INVALID_HALF_MOVE_COUNTER at h
    unfold validate_fen_tail at h
    split_ifs at h with t1 t2 t3
    exact t3
  · rw [hro] at h
    obtain ⟨hcodes, -⟩ := royal_checks_code _ _ _ _ _ _ hro
    rcases hcodes with rfl|rfl|rfl <;> exact FenValidation.noConfusion h

theorem validate_fen_move_inv (fen : List Char) (v : Variant)
    (h : validate_fen fen v = FEN_INVALID_MOVE_COUNTER) :
    check_digit_field ((fen_parts_of fen).getD ((fen_parts_of fen).length - 1) [])
      = NOK := by
  unfold validate_fen at h
  split_ifs at h
  rcases hro : royal_checks ((fen_parts_of fen).getD 0 []) (board_stage fen v).2
      (pockets_stage fen v).2 (fen_parts_of fen) v with _ | code
  · rw [hro] at h
    change validate_fen_tail (fen_parts_of fen) v = FEN_INVALID_MOVE_COUNTER at h
    unfold validate_fen_tail at h
    split_ifs at h with t1 t2 t3 t4
    exact t4
  · rw [hro] at h
    obtain ⟨hcodes, -⟩ := royal_checks_code _ _ _ _ _ _ hro
    rcases hcodes with rfl|rfl|rfl <;> exact FenValidation.noConfusion h

/-- C9: check_digit_field accepts the empty string (the all-digits loop is vacuous),
so a FEN whose second-to-last or last space-separated part is empty is never rejected
as an invalid half-move or move counter. -/
theorem c9_empty_digit_field_ok (fen : List Char) (v : Variant)
    (_hlen : 2 ≤ (fen_parts_of fen).length) :
    check_digit_field [] = OK ∧
    ((fen_parts_of fen).getD ((fen_parts_of fen).length - 2) [] = [] →
      validate_fen fen v ≠ FEN_INVALID_HALF_MOVE_COUNTER) ∧
    ((fen_parts_of fen).getD ((fen_parts_of fen).length - 1) [] = [] →
      validate_fen fen v ≠ FEN_INVALID_MOVE_COUNTER) := by
  refine ⟨rfl, fun hempty h => ?_, fun hempty h => ?_⟩
  · have hnok := validate_fen_half_inv fen v h
    rw [hempty] at hnok
    exact absurd hnok (by decide)
  · have hnok := validate_fen_move_inv fen v h
    rw [hempty] at hnok
    exact absurd hnok (by decide)

theorem c9_witness :
    2 ≤ (fen_parts_of emptyCounterFen).length ∧
    (check_digit_field [] = OK ∧
      ((fen_parts_of emptyCounterFen).getD ((fen_parts_of emptyCounterFen).length - 2) []
          = [] →
        validate_fen emptyCounterFen stdChess ≠ FEN_INVALID_HALF_MOVE_COUNTER) ∧
      ((fen_parts_of emptyCounterFen).getD ((fen_parts_of emptyCounterFen).length - 1) []
          = [] →
        validate_fen emptyCounterFen stdChess ≠ FEN_INVALID_MOVE_COUNTER)) :=
  ⟨by decide, c9_empty_digit_field_ok emptyCounterFen stdChess (by decide)⟩

/-! ## C10: which inputs can produce the king-related codes -/

/-- C10: the castling-info, touching-kings and number-of-kings codes are produced only
for variants declaring a royal king and no extinction piece types, and the castling
and touching-kings checks are skipped outright when a king glyph sits in either
parsed pocket. -/
theorem c10_royal_only_codes (fen : List Char) (v : Variant) (code : FenValidation)
    (h : validate_fen fen v = code)
    (hcode : code = FEN_INVALID_CASTLING_INFO ∨ code = FEN_TOUCHING_KINGS ∨
      code = FEN_INVALID_NUMBER_OF_KINGS) :
    v.hasKing = true ∧ v.extinctionEmpty = true ∧
    ((code = FEN_INVALID_CASTLING_INFO ∨ code = FEN_TOUCHING_KINGS) →
      no_king_piece_in_pockets (pockets_stage fen v).2 = true) := by
  unfold validate_fen at h
  split_ifs at h
  all_goals try (cases h; rcases hcode with h'|h'|h' <;> exact FenValidation.noConfusion h')
  rcases hro : royal_checks ((fen_parts_of fen).getD 0 []) (board_stage fen v).2
      (pockets_stage fen v).2 (fen_parts_of fen) v with _ | rcode
  · rw [hro] at h
    change validate_fen_tail (fen_parts_of fen) v = code at h
    rcases tail_codes (fen_parts_of fen) v with hta|hta|hta|hta|hta <;>
      (rw [hta] at h; cases h; rcases hcode with h'|h'|h' <;>
        exact FenValidation.noConfusion h')
  · rw [hro] at h
    change rcode = code at h
    subst h
    obtain ⟨-, hk, he, hnk⟩ := royal_checks_code _ _ _ _ _ _ hro
    refine ⟨hk, he, fun hcc => hnk ?_⟩
    rcases hcc with rfl|rfl <;> decide

theorem c10_witness :
    validate_fen touchingFen stdChess = FEN_TOUCHING_KINGS ∧
    (FEN_TOUCHING_KINGS = FEN_INVALID_CASTLING_INFO ∨
      FEN_TOUCHING_KINGS = FEN_TOUCHING_KINGS ∨
      FEN_TOUCHING_KINGS = FEN_INVALID_NUMBER_OF_KINGS) ∧
    (stdChess.hasKing = true ∧ stdChess.extinctionEmpty = true ∧
      ((FEN_TOUCHING_KINGS = FEN_INVALID_CASTLING_INFO ∨
          FEN_TOUCHING_KINGS = FEN_TOUCHING_KINGS) →
        no_king_piece_in_pockets (pockets_stage touchingFen stdChess).2 = true)) :=
  ⟨by decide, by decide,
    c10_royal_only_codes touchingFen stdChess FEN_TOUCHING_KINGS (by decide) (by decide)⟩

end Bookgen
